import Mathlib

/-!
# Verification of `db_operation.py` (Database Search Performance Analyzer)

Shallow embedding of the search algorithms and reporting logic of the class
`CustomerPurchasesDBSearchAnalyzer`.

Modelling choices:
* A record (a Python `dict` row) is an association list from column names to
  the *string form* of the column value.  Every comparison in the source first
  applies `str(...)` to both sides (`str(x[search_column])`, `str(target_value)`),
  so values are modelled directly by their string forms and `str` becomes the
  identity.
* Python `sorted(data, key=lambda x: str(x[search_column]))` evaluates the key
  on every element before sorting, hence it raises `KeyError` exactly when some
  record lacks the column; otherwise it returns a new, stable-sorted list and
  leaves the input unchanged.  It is modelled by a guard plus
  `List.insertionSort`: a stable sort under a total, transitive comparator has
  a unique output, so this is extensionally the same function as Python's
  stable sort, and it computes by `rfl`.
* Python string comparison (`<`, `==`) is lexicographic on code points.  The
  embedding compares `String.toList` values under the lexicographic order on
  `List Char`, which is exactly that order (and coincides with `String`'s own
  order, `String.lt_iff_toList_lt`); the `List Char` form is used because its
  comparisons evaluate inside the kernel.
* The `while left <= right` loop of `binary_search` (with `right` possibly
  `-1`) is encoded with `r1 = right + 1 : Nat`, the loop condition becoming
  `left < r1`; `mid = (left + right) // 2 = (left + r1 - 1) / 2`.  The loop is
  written with explicit fuel so that it computes by `decide`; calling it with
  fuel `length + 1` is enough, since each iteration shrinks `r1 - left`.
* Fallible code (an uncaught `KeyError`, a crashed reporter) is modelled with
  `Option`: `none` means the exception propagates to the caller.
* Wall-clock elapsed times are opaque; they are modelled as a `ℚ` parameter,
  and floating-point division of the two comparison counters is modelled by
  exact division in `ℚ` (the claims about it only compare against 1, which
  round-to-nearest float division preserves).
-/

/-- A database record: column name ↦ string form of the stored value. -/
abbrev Record := List (String × String)

namespace DBSearch

/-- `str(x[search_column])` when the column is present; `""` is junk returned
only on a missing column (the callers guard that case separately). -/
def keyStr (col : String) (r : Record) : String :=
  (r.lookup col).getD ""

/-- Whether `x[search_column]` succeeds for this record. -/
def hasCol (col : String) (r : Record) : Bool :=
  (r.lookup col).isSome

/-- `sorted(self.product_data, key=lambda x: str(x[search_column]))`
(line 231): a fresh working copy, sorted ascending by the string form of the
column value. -/
def sortByKey (data : List Record) (col : String) : List Record :=
  data.insertionSort (fun a b => (keyStr col a).toList ≤ (keyStr col b).toList)

/-- The `while left <= right` loop of `binary_search` (lines 241-252).
`r1` stands for `right + 1`, `fuel` bounds the number of iterations
(`r1 - left` shrinks every iteration, so any fuel ≥ `r1 - left` is exact). -/
def binarySearchGo (sortedData : List Record) (col target : String) :
    Nat → Nat → Nat → Nat → Option Record × Nat
  | 0, _, _, comparisons => (none, comparisons)
  | fuel + 1, left, r1, comparisons =>
    if left < r1 then
      let mid := (left + r1 - 1) / 2
      let midValue := keyStr col (sortedData.getD mid [])
      if midValue = target then
        (some (sortedData.getD mid []), comparisons + 1)
      else if midValue.toList < target.toList then
        binarySearchGo sortedData col target fuel (mid + 1) r1 (comparisons + 1)
      else
        binarySearchGo sortedData col target fuel left mid (comparisons + 1)
    else
      (none, comparisons)

/-- `binary_search(self, target_value, search_column)` (lines 228-255).
On a missing column the `sorted` call raises `KeyError`, which is caught and
turned into `(None, 0)`; otherwise the loop runs over the sorted working copy.
Returns (result record or `None`, number of loop-iteration comparisons). -/
def binary_search (data : List Record) (target_value search_column : String) :
    Option Record × Nat :=
  if data.all (hasCol search_column) then
    let sorted_data := sortByKey data search_column
    binarySearchGo sorted_data search_column target_value
      (sorted_data.length + 1) 0 sorted_data.length 0
  else
    (none, 0)

/-- The `for record in self.product_data` loop of `sequential_search`
(lines 263-267).  `none` models an uncaught `KeyError` (line 265 has no
`try`/`except`), raised at the first scanned record lacking the column. -/
def sequentialSearchGo (col target : String) :
    List Record → Nat → Option (Option Record × Nat)
  | [], comparisons => some (none, comparisons)
  | r :: rest, comparisons =>
    match r.lookup col with
    | none => none
    | some v =>
      if v = target then some (some r, comparisons + 1)
      else sequentialSearchGo col target rest (comparisons + 1)

/-- `sequential_search(self, target_value, search_column)` (lines 257-270).
`some (result, comparisons)` on normal return, `none` when `KeyError`
propagates to the caller. -/
def sequential_search (data : List Record) (target_value search_column : String) :
    Option (Option Record × Nat) :=
  sequentialSearchGo search_column target_value data 0

/-- Outcome of the SQL query in the database search helpers: `.ok r` is a
fetched row (or none), `.error e` models any exception raised by
`cursor.execute`/`fetchone` (store unreachable mid-session, invalid column
name in the interpolated query, ...). -/
abbrev QueryOutcome := Except String (Option Record)

/-- `database_search_indexed(self, search_value, column)` (lines 166-195).
The external store is abstracted by `hasConn` (is `self.connection` set) and
`queryRes`; `t` is the elapsed wall-clock time of a successful query.
No connection or a query exception yields `(None, 0)` instead of propagating. -/
def database_search_indexed (hasConn : Bool) (queryRes : QueryOutcome)
    (t : ℚ) : Option Record × ℚ :=
  if hasConn = false then (none, 0)
  else
    match queryRes with
    | .error _ => (none, 0)
    | .ok r => (r, t)

/-- `database_search_unindexed(self, search_value, column)` (lines 197-226):
identical control flow to the indexed variant (only the SQL plan and the
printed label differ). -/
def database_search_unindexed (hasConn : Bool) (queryRes : QueryOutcome)
    (t : ℚ) : Option Record × ℚ :=
  if hasConn = false then (none, 0)
  else
    match queryRes with
    | .error _ => (none, 0)
    | .ok r => (r, t)

/-- `indexed_columns` (line 278). -/
def indexed_columns : List String :=
  ["customer_id", "product_category", "purchase_date"]

/-- Everything `perform_search_comparison` computes and displays. -/
structure ComparisonSummary where
  dbResult : Option Record
  dbTime : ℚ
  binaryResult : Option Record
  binaryComparisons : Nat
  sequentialResult : Option Record
  sequentialComparisons : Nat
  /-- `speedup = sequential_comparisons / binary_comparisons`, computed only
  when both counters are positive (lines 299-301). -/
  speedup : Option ℚ
  deriving DecidableEq, Repr

/-- `perform_search_comparison(self, search_value, column)` (lines 272-309)
restricted to its data flow (prints dropped).  `none` models the call crashing
because `sequential_search` raised `KeyError` (line 291 is not guarded). -/
def perform_search_comparison (data : List Record)
    (search_value column : String) (hasConn : Bool) (queryRes : QueryOutcome)
    (t : ℚ) : Option ComparisonSummary :=
  let db :=
    if column ∈ indexed_columns then database_search_indexed hasConn queryRes t
    else database_search_unindexed hasConn queryRes t
  let bin := binary_search data search_value column
  match sequential_search data search_value column with
  | none => none
  | some seq =>
    some
      { dbResult := db.1
        dbTime := db.2
        binaryResult := bin.1
        binaryComparisons := bin.2
        sequentialResult := seq.1
        sequentialComparisons := seq.2
        speedup :=
          if seq.2 > 0 ∧ bin.2 > 0 then some ((seq.2 : ℚ) / (bin.2 : ℚ))
          else none }

/-- The mutable state of `CustomerPurchasesDBSearchAnalyzer` that the search
methods can see (`self.product_data`, the in-memory snapshot). -/
structure AnalyzerState where
  product_data : List Record
  deriving DecidableEq

/-- The `binary_search` *method*: it reads `self.product_data`, builds the
sorted working copy with non-mutating `sorted(...)`, and contains no
assignment to `self`, so the state component of the embedding is returned
unchanged. -/
def binary_search_method (st : AnalyzerState) (target_value search_column : String) :
    (Option Record × Nat) × AnalyzerState :=
  (binary_search st.product_data target_value search_column, st)

/-- The methods actually defined on `CustomerPurchasesDBSearchAnalyzer`
(lines 12-420 of `db_operation.py`).  `load_from_csv` is absent: its entire
definition (lines 53-62) is commented out. -/
def analyzerMethods : List String :=
  ["__init__", "load_db_config", "connect_to_database", "fetch_all_data",
   "get_unique_values", "display_available_data", "database_search_indexed",
   "database_search_unindexed", "binary_search", "sequential_search",
   "perform_search_comparison", "interactive_menu", "search_by_column",
   "run_performance_tests", "display_index_information", "close_connection"]

/-- The method that the `except` branch of `connect_to_database` invokes as
its CSV fallback (`self.load_from_csv()`, line 51). -/
def fallbackMethodCalled : String := "load_from_csv"

/-- Outcome of `connect_to_database` (lines 43-51). -/
inductive StartupOutcome where
  /-- `psycopg2.connect` succeeded. -/
  | connected
  /-- `psycopg2.connect` raised; the `except` branch then looks up a method
  named `m` on `self`, and `m` is not among the class's methods, so an
  uncaught `AttributeError` escapes the constructor. -/
  | attributeError (m : String)
  /-- `psycopg2.connect` raised and the fallback method exists and ran. -/
  | fellBackToCsv
  deriving DecidableEq

/-- `connect_to_database(self)` (lines 43-51): on connection failure it calls
`self.load_from_csv()`; Python resolves that name against the class's defined
methods, raising `AttributeError` when it is missing. -/
def connect_to_database (connectSucceeds : Bool) : StartupOutcome :=
  if connectSucceeds then .connected
  else if fallbackMethodCalled ∈ analyzerMethods then .fellBackToCsv
  else .attributeError fallbackMethodCalled

/-! ## Basic facts about column lookup and the sorted working copy -/

lemma lookup_eq_of_hasCol {col : String} {r : Record} (h : hasCol col r = true) :
    r.lookup col = some (keyStr col r) := by
  unfold hasCol at h
  cases hl : r.lookup col with
  | none => rw [hl] at h; simp at h
  | some v => simp [keyStr, hl]

lemma keyStr_eq_of_lookup {col target : String} {r : Record}
    (h : r.lookup col = some target) : keyStr col r = target := by
  simp [keyStr, h]

instance keyLeTotal (col : String) :
    IsTotal Record (fun a b => (keyStr col a).toList ≤ (keyStr col b).toList) :=
  ⟨fun _ _ => le_total _ _⟩

instance keyLeTrans (col : String) :
    IsTrans Record (fun a b => (keyStr col a).toList ≤ (keyStr col b).toList) :=
  ⟨fun _ _ _ hab hbc => le_trans hab hbc⟩

lemma sortByKey_sorted (data : List Record) (col : String) :
    List.Sorted (fun a b => (keyStr col a).toList ≤ (keyStr col b).toList) (sortByKey data col) :=
  List.sorted_insertionSort _ _

lemma sortByKey_perm (data : List Record) (col : String) :
    List.Perm (sortByKey data col) data :=
  List.perm_insertionSort _ _

lemma sortByKey_length (data : List Record) (col : String) :
    (sortByKey data col).length = data.length :=
  (sortByKey_perm data col).length_eq

lemma mem_sortByKey {data : List Record} {col : String} {r : Record} :
    r ∈ sortByKey data col ↔ r ∈ data :=
  (sortByKey_perm data col).mem_iff

lemma getD_eq_get {l : List Record} {i : Nat} (h : i < l.length) :
    l.getD i [] = l.get ⟨i, h⟩ := by
  simp [List.getD_eq_getElem?_getD, List.getElem?_eq_getElem h]

lemma sorted_keyStr_mono {d : List Record} {col : String}
    (hs : List.Sorted (fun a b => (keyStr col a).toList ≤ (keyStr col b).toList) d)
    {i j : Nat} (hij : i ≤ j) (hj : j < d.length) :
    (keyStr col (d.getD i [])).toList ≤ (keyStr col (d.getD j [])).toList := by
  rcases eq_or_lt_of_le hij with rfl | hlt
  · exact le_refl _
  · have hi : i < d.length := lt_trans hlt hj
    rw [getD_eq_get hi, getD_eq_get hj]
    exact hs.rel_get_of_lt (Fin.mk_lt_mk.mpr hlt)

/-! ## Facts about the sequential search loop -/

lemma sequentialSearchGo_not_found {col target : String} (data : List Record) :
    ∀ (k : Nat),
      (∀ r ∈ data, hasCol col r = true) →
      (∀ r ∈ data, r.lookup col ≠ some target) →
      sequentialSearchGo col target data k = some (none, k + data.length) := by
  induction data with
  | nil => intro k _ _; simp [sequentialSearchGo]
  | cons r rest ih =>
    intro k hall hnone
    have hr := lookup_eq_of_hasCol (hall r (by simp))
    have hne : ¬(keyStr col r = target) := fun h => hnone r (by simp) (h ▸ hr)
    simp only [sequentialSearchGo, hr, if_neg hne]
    rw [ih (k + 1) (fun s hs => hall s (by simp [hs])) (fun s hs => hnone s (by simp [hs]))]
    simp [List.length_cons]
    omega

lemma sequentialSearchGo_sound {col target : String} (data : List Record) :
    ∀ (k : Nat) {r : Record} {c : Nat},
      sequentialSearchGo col target data k = some (some r, c) →
      r ∈ data ∧ r.lookup col = some target := by
  induction data with
  | nil => intro k r c h; simp [sequentialSearchGo] at h
  | cons a rest ih =>
    intro k r c h
    cases hl : a.lookup col with
    | none => simp only [sequentialSearchGo, hl] at h; exact absurd h (by simp)
    | some v =>
      simp only [sequentialSearchGo, hl] at h
      by_cases hv : v = target
      · rw [if_pos hv] at h
        have h1 : a = r ∧ k + 1 = c := by
          simpa [Prod.ext_iff] using h
        exact ⟨by rw [← h1.1]; simp, by rw [← h1.1, hl, hv]⟩
      · rw [if_neg hv] at h
        obtain ⟨hm, hk⟩ := ih (k + 1) h
        exact ⟨by simp [hm], hk⟩

lemma sequentialSearchGo_found {col target : String} (data : List Record) :
    ∀ (k : Nat),
      (∀ r ∈ data, hasCol col r = true) →
      (∃ r ∈ data, r.lookup col = some target) →
      ∃ r c, sequentialSearchGo col target data k = some (some r, c) := by
  induction data with
  | nil => intro k _ hex; simp at hex
  | cons a rest ih =>
    intro k hall hex
    have ha := lookup_eq_of_hasCol (hall a (by simp))
    simp only [sequentialSearchGo, ha]
    by_cases hv : keyStr col a = target
    · exact ⟨a, k + 1, by rw [if_pos hv]⟩
    · rw [if_neg hv]
      apply ih (k + 1) (fun s hs => hall s (by simp [hs]))
      obtain ⟨r, hr, hkey⟩ := hex
      rcases List.mem_cons.mp hr with rfl | hmem
      · exact absurd (keyStr_eq_of_lookup hkey) hv
      · exact ⟨r, hmem, hkey⟩

lemma sequentialSearchGo_first_match {col target : String} (data : List Record) :
    ∀ (k i : Nat) (hi : i < data.length),
      (∀ r ∈ data, hasCol col r = true) →
      (data.get ⟨i, hi⟩).lookup col = some target →
      (∀ j (hj : j < data.length), j < i →
        (data.get ⟨j, hj⟩).lookup col ≠ some target) →
      sequentialSearchGo col target data k =
        some (some (data.get ⟨i, hi⟩), k + i + 1) := by
  induction data with
  | nil => intro k i hi; simp at hi
  | cons a rest ih =>
    intro k i hi hall hmatch hfirst
    have ha := lookup_eq_of_hasCol (hall a (by simp))
    simp only [sequentialSearchGo, ha]
    cases i with
    | zero =>
      have hv : keyStr col a = target := keyStr_eq_of_lookup (by simpa using hmatch)
      rw [if_pos hv]
      simp
    | succ i' =>
      have hne : ¬(keyStr col a = target) := by
        intro h
        exact hfirst 0 (by simp) (Nat.succ_pos i') (by simpa using h ▸ ha)
      rw [if_neg hne]
      have hi' : i' < rest.length := by simpa using hi
      rw [ih (k + 1) i' hi' (fun s hs => hall s (by simp [hs]))
        (by simpa using hmatch)
        (fun j hj hji =>
          by simpa using hfirst (j + 1) (by simpa using hj) (by omega))]
      simp only [Option.some.injEq, Prod.mk.injEq]
      exact ⟨by simp, by omega⟩

/-! ## Facts about the binary search loop -/

lemma binarySearchGo_count_ge {d : List Record} {col target : String} :
    ∀ (fuel left r1 k : Nat), k ≤ (binarySearchGo d col target fuel left r1 k).2 := by
  intro fuel
  induction fuel with
  | zero => intro left r1 k; simp [binarySearchGo]
  | succ f ih =>
    intro left r1 k
    simp only [binarySearchGo]
    by_cases h : left < r1
    · rw [if_pos h]
      by_cases hfound :
          keyStr col (d.getD ((left + r1 - 1) / 2) []) = target
      · simp only [if_pos hfound]
        omega
      · rw [if_neg hfound]
        by_cases hlt : (keyStr col (d.getD ((left + r1 - 1) / 2) [])).toList < target.toList
        · rw [if_pos hlt]
          exact le_trans (by omega) (ih _ _ (k + 1))
        · rw [if_neg hlt]
          exact le_trans (by omega) (ih _ _ (k + 1))
    · rw [if_neg h]

lemma binarySearchGo_count_pos {d : List Record} {col target : String}
    (fuel left r1 k : Nat) (hlr : left < r1) (hf : 1 ≤ fuel) :
    k + 1 ≤ (binarySearchGo d col target fuel left r1 k).2 := by
  cases fuel with
  | zero => omega
  | succ f =>
    simp only [binarySearchGo, if_pos hlr]
    by_cases hfound : keyStr col (d.getD ((left + r1 - 1) / 2) []) = target
    · simp only [if_pos hfound]
      omega
    · rw [if_neg hfound]
      by_cases hlt : (keyStr col (d.getD ((left + r1 - 1) / 2) [])).toList < target.toList
      · rw [if_pos hlt]; exact binarySearchGo_count_ge f _ _ (k + 1)
      · rw [if_neg hlt]; exact binarySearchGo_count_ge f _ _ (k + 1)

lemma binarySearchGo_count_le {d : List Record} {col target : String} :
    ∀ (fuel left r1 k : Nat), r1 - left ≤ fuel →
      (binarySearchGo d col target fuel left r1 k).2 ≤ k + (r1 - left) := by
  intro fuel
  induction fuel with
  | zero => intro left r1 k hfit; simp [binarySearchGo]
  | succ f ih =>
    intro left r1 k hfit
    simp only [binarySearchGo]
    by_cases h : left < r1
    · rw [if_pos h]
      have hmid : left ≤ (left + r1 - 1) / 2 ∧ (left + r1 - 1) / 2 < r1 := by omega
      by_cases hfound :
          keyStr col (d.getD ((left + r1 - 1) / 2) []) = target
      · simp only [if_pos hfound]
        omega
      · rw [if_neg hfound]
        by_cases hlt : (keyStr col (d.getD ((left + r1 - 1) / 2) [])).toList < target.toList
        · rw [if_pos hlt]
          have := ih ((left + r1 - 1) / 2 + 1) r1 (k + 1) (by omega)
          omega
        · rw [if_neg hlt]
          have := ih left ((left + r1 - 1) / 2) (k + 1) (by omega)
          omega
    · rw [if_neg h]
      omega

/-- The ceiling-log recurrence matching one halving step of binary search. -/
lemma clog2_half_add_one {s : Nat} (hs : 1 ≤ s) :
    Nat.clog 2 (s / 2 + 1) + 1 = Nat.clog 2 (s + 1) := by
  have h2 : 2 ≤ s + 1 := by omega
  rw [Nat.clog_of_two_le (by norm_num) h2]
  have : (s + 1 + 2 - 1) / 2 = s / 2 + 1 := by omega
  rw [this]

lemma binarySearchGo_count_le_clog {d : List Record} {col target : String} :
    ∀ (fuel left r1 k : Nat), r1 - left ≤ fuel →
      (binarySearchGo d col target fuel left r1 k).2 ≤
        k + Nat.clog 2 (r1 - left + 1) := by
  intro fuel
  induction fuel with
  | zero => intro left r1 k hfit; simp [binarySearchGo]
  | succ f ih =>
    intro left r1 k hfit
    simp only [binarySearchGo]
    by_cases h : left < r1
    · rw [if_pos h]
      have hclog : Nat.clog 2 ((r1 - left) / 2 + 1) + 1 =
          Nat.clog 2 (r1 - left + 1) := clog2_half_add_one (by omega)
      by_cases hfound :
          keyStr col (d.getD ((left + r1 - 1) / 2) []) = target
      · simp only [if_pos hfound]
        have : 0 < Nat.clog 2 (r1 - left + 1) :=
          Nat.clog_pos (by norm_num) (by omega)
        omega
      · rw [if_neg hfound]
        by_cases hlt : (keyStr col (d.getD ((left + r1 - 1) / 2) [])).toList < target.toList
        · rw [if_pos hlt]
          have hrec := ih ((left + r1 - 1) / 2 + 1) r1 (k + 1) (by omega)
          have hmono : Nat.clog 2 (r1 - ((left + r1 - 1) / 2 + 1) + 1) ≤
              Nat.clog 2 ((r1 - left) / 2 + 1) :=
            Nat.clog_mono_right 2 (by omega)
          omega
        · rw [if_neg hlt]
          have hrec := ih left ((left + r1 - 1) / 2) (k + 1) (by omega)
          have hmono : Nat.clog 2 ((left + r1 - 1) / 2 - left + 1) ≤
              Nat.clog 2 ((r1 - left) / 2 + 1) :=
            Nat.clog_mono_right 2 (by omega)
          omega
    · rw [if_neg h]
      simp

lemma binarySearchGo_sound {d : List Record} {col target : String} :
    ∀ (fuel left r1 k : Nat), r1 ≤ d.length →
      ∀ {r : Record} {c : Nat},
        binarySearchGo d col target fuel left r1 k = (some r, c) →
        r ∈ d ∧ keyStr col r = target := by
  intro fuel
  induction fuel with
  | zero => intro left r1 k _ r c h; simp [binarySearchGo] at h
  | succ f ih =>
    intro left r1 k hlen r c h
    simp only [binarySearchGo] at h
    by_cases hlr : left < r1
    · rw [if_pos hlr] at h
      have hmid : (left + r1 - 1) / 2 < d.length := by omega
      by_cases hfound :
          keyStr col (d.getD ((left + r1 - 1) / 2) []) = target
      · simp only [if_pos hfound, Prod.mk.injEq, Option.some.injEq] at h
        refine ⟨?_, h.1 ▸ hfound⟩
        rw [← h.1, getD_eq_get hmid]
        exact List.get_mem d _ hmid
      · rw [if_neg hfound] at h
        by_cases hlt : (keyStr col (d.getD ((left + r1 - 1) / 2) [])).toList < target.toList
        · rw [if_pos hlt] at h
          exact ih _ _ _ hlen h
        · rw [if_neg hlt] at h
          exact ih _ _ _ (le_of_lt hmid) h
    · rw [if_neg hlr] at h
      exact absurd h (by simp)

lemma binarySearchGo_complete {d : List Record} {col target : String}
    (hsorted : List.Sorted (fun a b => (keyStr col a).toList ≤ (keyStr col b).toList) d) :
    ∀ (fuel left r1 k : Nat), r1 - left ≤ fuel → r1 ≤ d.length →
      (∃ i, left ≤ i ∧ i < r1 ∧ keyStr col (d.getD i []) = target) →
      ∃ r c, binarySearchGo d col target fuel left r1 k = (some r, c) := by
  intro fuel
  induction fuel with
  | zero =>
    intro left r1 k hfit _ hex
    obtain ⟨i, h1, h2, _⟩ := hex
    omega
  | succ f ih =>
    intro left r1 k hfit hlen hex
    obtain ⟨i, hli, hir, hkey⟩ := hex
    have hlr : left < r1 := by omega
    simp only [binarySearchGo, if_pos hlr]
    by_cases hfound :
        keyStr col (d.getD ((left + r1 - 1) / 2) []) = target
    · exact ⟨_, _, by rw [if_pos hfound]⟩
    · rw [if_neg hfound]
      by_cases hlt : (keyStr col (d.getD ((left + r1 - 1) / 2) [])).toList < target.toList
      · rw [if_pos hlt]
        have hmidi : (left + r1 - 1) / 2 < i := by
          by_contra hcon
          have hle : i ≤ (left + r1 - 1) / 2 := by omega
          have := sorted_keyStr_mono hsorted hle (by omega)
          rw [hkey] at this
          exact absurd (lt_of_le_of_lt this hlt) (lt_irrefl _)
        exact ih _ _ (k + 1) (by omega) hlen ⟨i, by omega, hir, hkey⟩
      · rw [if_neg hlt]
        have htgt : target.toList <
            (keyStr col (d.getD ((left + r1 - 1) / 2) [])).toList :=
          lt_of_le_of_ne (not_lt.mp hlt)
            (fun h => hfound (String.toList_inj.mp h.symm))
        have hmidi : i < (left + r1 - 1) / 2 := by
          by_contra hcon
          have hle : (left + r1 - 1) / 2 ≤ i := by omega
          have := sorted_keyStr_mono hsorted hle (by omega)
          rw [hkey] at this
          exact absurd (lt_of_le_of_lt this htgt) (lt_irrefl _)
        exact ih _ _ (k + 1) (by omega) (by omega) ⟨i, hli, hmidi, hkey⟩

/-! ## Facts about `binary_search` as a whole -/

lemma all_hasCol_iff {data : List Record} {col : String} :
    data.all (hasCol col) = true ↔ ∀ r ∈ data, hasCol col r = true := by
  simp [List.all_eq_true]

lemma binary_search_all_col {data : List Record} {target col : String}
    (h : data.all (hasCol col) = true) :
    binary_search data target col =
      binarySearchGo (sortByKey data col) col target
        ((sortByKey data col).length + 1) 0 (sortByKey data col).length 0 := by
  simp only [binary_search, if_pos h]

lemma binary_search_missing_col {data : List Record} {target col : String}
    (h : ¬ data.all (hasCol col) = true) :
    binary_search data target col = (none, 0) := by
  simp only [binary_search, if_neg h]

lemma all_hasCol_false {data : List Record} {col : String} (hne : data ≠ [])
    (hmiss : ∀ r ∈ data, r.lookup col = none) :
    ¬ data.all (hasCol col) = true := by
  intro h
  obtain ⟨r, hr⟩ := List.exists_mem_of_ne_nil data hne
  have hc := all_hasCol_iff.mp h r hr
  rw [hasCol, hmiss r hr] at hc
  simp at hc

lemma binary_search_sound {data : List Record} {target col : String}
    (hall : data.all (hasCol col) = true) {r : Record} {c : Nat}
    (h : binary_search data target col = (some r, c)) :
    r ∈ data ∧ r.lookup col = some target := by
  rw [binary_search_all_col hall] at h
  obtain ⟨hmem, hkey⟩ := binarySearchGo_sound _ _ _ _ (le_refl _) h
  have hmem' : r ∈ data := mem_sortByKey.mp hmem
  have hc : hasCol col r = true := all_hasCol_iff.mp hall r hmem'
  exact ⟨hmem', by rw [lookup_eq_of_hasCol hc, hkey]⟩

lemma binary_search_complete {data : List Record} {target col : String}
    (hall : data.all (hasCol col) = true)
    (hex : ∃ r ∈ data, r.lookup col = some target) :
    ∃ r c, binary_search data target col = (some r, c) := by
  rw [binary_search_all_col hall]
  obtain ⟨r, hr, hkey⟩ := hex
  have hr' : r ∈ sortByKey data col := mem_sortByKey.mpr hr
  obtain ⟨⟨i, hi⟩, hget⟩ := List.mem_iff_get.mp hr'
  apply binarySearchGo_complete (sortByKey_sorted data col) _ 0 _ 0
    (by omega) (le_refl _)
  exact ⟨i, Nat.zero_le i, hi,
    by rw [getD_eq_get hi, hget]; exact keyStr_eq_of_lookup hkey⟩

lemma binary_search_not_found {data : List Record} {target col : String}
    (hall : data.all (hasCol col) = true)
    (hnone : ∀ r ∈ data, r.lookup col ≠ some target) :
    (binary_search data target col).1 = none := by
  cases hres : (binary_search data target col).1 with
  | none => rfl
  | some r =>
    have h : binary_search data target col =
        (some r, (binary_search data target col).2) := by
      rw [← hres]
    obtain ⟨hmem, hkey⟩ := binary_search_sound hall h
    exact absurd hkey (hnone r hmem)

lemma binary_search_count_le_clog {data : List Record} {target col : String}
    (hall : data.all (hasCol col) = true) :
    (binary_search data target col).2 ≤ Nat.clog 2 (data.length + 1) := by
  rw [binary_search_all_col hall]
  have := @binarySearchGo_count_le_clog (sortByKey data col) col target
    ((sortByKey data col).length + 1) 0 (sortByKey data col).length 0 (by omega)
  simpa [sortByKey_length] using this

lemma binary_search_count_le_length {data : List Record} {target col : String}
    (hall : data.all (hasCol col) = true) :
    (binary_search data target col).2 ≤ data.length := by
  rw [binary_search_all_col hall]
  have := @binarySearchGo_count_le (sortByKey data col) col target
    ((sortByKey data col).length + 1) 0 (sortByKey data col).length 0 (by omega)
  simpa [sortByKey_length] using this

lemma binary_search_count_pos {data : List Record} {target col : String}
    (hall : data.all (hasCol col) = true) (hne : data ≠ []) :
    1 ≤ (binary_search data target col).2 := by
  rw [binary_search_all_col hall]
  have hlen : 0 < (sortByKey data col).length := by
    rw [sortByKey_length]
    exact List.length_pos.mpr hne
  have := @binarySearchGo_count_pos (sortByKey data col) col target
    ((sortByKey data col).length + 1) 0 (sortByKey data col).length 0 hlen (by omega)
  omega

/-! ## Facts about `sequential_search` as a whole and the reporter -/

lemma sequential_search_not_found {data : List Record} {target col : String}
    (hall : data.all (hasCol col) = true)
    (hnone : ∀ r ∈ data, r.lookup col ≠ some target) :
    sequential_search data target col = some (none, data.length) := by
  have := sequentialSearchGo_not_found data 0 (all_hasCol_iff.mp hall) hnone
  simpa [sequential_search] using this

lemma sequential_search_found {data : List Record} {target col : String}
    (hall : data.all (hasCol col) = true)
    (hex : ∃ r ∈ data, r.lookup col = some target) :
    ∃ r c, sequential_search data target col = some (some r, c) :=
  sequentialSearchGo_found data 0 (all_hasCol_iff.mp hall) hex

lemma sequential_search_sound {data : List Record} {target col : String}
    {r : Record} {c : Nat}
    (h : sequential_search data target col = some (some r, c)) :
    r ∈ data ∧ r.lookup col = some target :=
  sequentialSearchGo_sound data 0 h

lemma sequential_search_total {data : List Record} {target col : String}
    (hall : data.all (hasCol col) = true) :
    ∃ p, sequential_search data target col = some p := by
  by_cases hex : ∃ r ∈ data, r.lookup col = some target
  · obtain ⟨r, c, h⟩ := sequential_search_found hall hex
    exact ⟨(some r, c), h⟩
  · push_neg at hex
    exact ⟨(none, data.length), sequential_search_not_found hall hex⟩

lemma sequential_search_missing_col {data : List Record} {target col : String}
    (hne : data ≠ []) (hmiss : ∀ r ∈ data, r.lookup col = none) :
    sequential_search data target col = none := by
  cases data with
  | nil => exact absurd rfl hne
  | cons a rest =>
    have ha := hmiss a (by simp)
    simp [sequential_search, sequentialSearchGo, ha]

lemma exists_two_idx {data : List Record} {r₁ r₂ : Record}
    (h₁ : r₁ ∈ data) (h₂ : r₂ ∈ data) (hne : r₁ ≠ r₂) :
    ∃ i j, i < data.length ∧ j < data.length ∧ i ≠ j ∧
      data.getD i [] = r₁ ∧ data.getD j [] = r₂ := by
  obtain ⟨⟨i, hi⟩, hgi⟩ := List.mem_iff_get.mp h₁
  obtain ⟨⟨j, hj⟩, hgj⟩ := List.mem_iff_get.mp h₂
  refine ⟨i, j, hi, hj, ?_, by rw [getD_eq_get hi, hgi],
    by rw [getD_eq_get hj, hgj]⟩
  intro hij
  subst hij
  exact hne (by rw [← hgi, ← hgj])

lemma perform_eq {data : List Record} {v col : String} {hc : Bool}
    {q : QueryOutcome} {t : ℚ} {p : Option Record × Nat}
    (hseq : sequential_search data v col = some p) :
    perform_search_comparison data v col hc q t = some
      { dbResult := (if col ∈ indexed_columns then database_search_indexed hc q t
          else database_search_unindexed hc q t).1
        dbTime := (if col ∈ indexed_columns then database_search_indexed hc q t
          else database_search_unindexed hc q t).2
        binaryResult := (binary_search data v col).1
        binaryComparisons := (binary_search data v col).2
        sequentialResult := p.1
        sequentialComparisons := p.2
        speedup := if p.2 > 0 ∧ (binary_search data v col).2 > 0
          then some ((p.2 : ℚ) / ((binary_search data v col).2 : ℚ))
          else none } := by
  simp only [perform_search_comparison, hseq]

lemma perform_missing_col {data : List Record} {v col : String} {hc : Bool}
    {q : QueryOutcome} {t : ℚ}
    (hmiss : sequential_search data v col = none) :
    perform_search_comparison data v col hc q t = none := by
  simp only [perform_search_comparison, hmiss]

/-! ## The claims -/

/-- C1: for every snapshot whose records carry the column, binary search and
sequential search agree on whether a match is found, and they can return
different records only when two distinct positions of the snapshot share the
same string form of the column value. -/
theorem binary_sequential_agree (data : List Record) (target col : String)
    (hall : data.all (hasCol col) = true) :
    (∃ res c, sequential_search data target col = some (res, c) ∧
      ((binary_search data target col).1.isSome ↔ res.isSome)) ∧
    (∀ r₁ r₂ c₁ c₂,
      binary_search data target col = (some r₁, c₁) →
      sequential_search data target col = some (some r₂, c₂) →
      r₁ ≠ r₂ →
      ∃ i j, i < data.length ∧ j < data.length ∧ i ≠ j ∧
        (data.getD i []).lookup col = some target ∧
        (data.getD j []).lookup col = some target) := by
  constructor
  · by_cases hex : ∃ r ∈ data, r.lookup col = some target
    · obtain ⟨rb, cb, hb⟩ := binary_search_complete hall hex
      obtain ⟨rs, cs, hs⟩ := sequential_search_found hall hex
      exact ⟨some rs, cs, hs, by rw [hb]; simp⟩
    · push_neg at hex
      have hb := binary_search_not_found hall hex
      have hs := sequential_search_not_found hall hex
      exact ⟨none, data.length, hs, by rw [hb]⟩
  · intro r₁ r₂ c₁ c₂ hb hs hne
    obtain ⟨hm₁, hk₁⟩ := binary_search_sound hall hb
    obtain ⟨hm₂, hk₂⟩ := sequential_search_sound hs
    obtain ⟨i, j, hi, hj, hij, hgi, hgj⟩ := exists_two_idx hm₁ hm₂ hne
    exact ⟨i, j, hi, hj, hij, by rw [hgi]; exact hk₁, by rw [hgj]; exact hk₂⟩

/-- C2: sequential search scans in snapshot order; it returns the first
record whose column string form equals the target with comparison count equal
to its index plus one, and `(not found, length)` when nothing matches. -/
theorem sequential_search_spec (data : List Record) (target col : String)
    (hall : data.all (hasCol col) = true) :
    ((∀ r ∈ data, r.lookup col ≠ some target) →
      sequential_search data target col = some (none, data.length)) ∧
    (∀ i (hi : i < data.length),
      (data.get ⟨i, hi⟩).lookup col = some target →
      (∀ j (hj : j < data.length), j < i →
        (data.get ⟨j, hj⟩).lookup col ≠ some target) →
      sequential_search data target col =
        some (some (data.get ⟨i, hi⟩), i + 1)) := by
  constructor
  · exact fun hnone => sequential_search_not_found hall hnone
  · intro i hi hmatch hfirst
    have := sequentialSearchGo_first_match data 0 i hi
      (all_hasCol_iff.mp hall) hmatch hfirst
    simpa [sequential_search] using this

/-- C3: on a non-empty snapshot carrying the column, binary search finds an
existing target within `⌈log₂ (N + 1)⌉` comparisons, one comparison per loop
iteration over the sorted working copy. -/
theorem binary_search_log_bound (data : List Record) (target col : String)
    (_hne : data ≠ []) (hall : data.all (hasCol col) = true)
    (hex : ∃ r ∈ data, r.lookup col = some target) :
    ∃ r c, binary_search data target col = (some r, c) ∧
      r.lookup col = some target ∧ c ≤ Nat.clog 2 (data.length + 1) := by
  obtain ⟨r, c, h⟩ := binary_search_complete hall hex
  obtain ⟨_, hkey⟩ := binary_search_sound hall h
  have hc := @binary_search_count_le_clog data target col hall
  rw [h] at hc
  exact ⟨r, c, h, hkey, hc⟩

/-- C4: on an empty snapshot both searches return not-found with exactly zero
comparisons and raise nothing. -/
theorem empty_snapshot_zero_comparisons (target col : String) :
    binary_search [] target col = (none, 0) ∧
    sequential_search [] target col = some (none, 0) :=
  ⟨rfl, rfl⟩

/-- C9: the `binary_search` method leaves the snapshot untouched: the method
contains no write to `self.product_data`, and the sorted working copy it
builds is a separate permutation of the snapshot. -/
theorem binary_search_preserves_snapshot (st : AnalyzerState)
    (target col : String) :
    (binary_search_method st target col).2 = st ∧
    List.Perm (sortByKey st.product_data col) st.product_data :=
  ⟨rfl, sortByKey_perm _ _⟩

/-- C10: on a non-empty snapshot lacking the column, sequential search raises
an uncaught `KeyError` (modelled by `none`), while binary search catches the
error and returns `(None, 0)` — the very value the empty-snapshot not-found
case returns. -/
theorem missing_column_asymmetry (data : List Record) (target col : String)
    (hne : data ≠ []) (hmiss : ∀ r ∈ data, r.lookup col = none) :
    sequential_search data target col = none ∧
    binary_search data target col = (none, 0) ∧
    binary_search data target col = binary_search [] target col := by
  have hb := @binary_search_missing_col data target col
    (all_hasCol_false hne hmiss)
  exact ⟨sequential_search_missing_col hne hmiss, hb, by rw [hb]; rfl⟩

/-- C5 counterexample: on a non-empty snapshot lacking the column, sequential
search does not mirror binary search's input/output contract: it raises
(modelled by `none`) while binary search returns `(None, 0)`, the same value
as the empty-snapshot not-found result. -/
theorem missing_column_contract_mismatch :
    sequential_search [[("customer_id", "1")]] "x" "bogus" = none ∧
    binary_search [[("customer_id", "1")]] "x" "bogus" = (none, 0) ∧
    binary_search [[("customer_id", "1")]] "x" "bogus" =
      binary_search [] "x" "bogus" :=
  ⟨rfl, rfl, rfl⟩

/-- C5 (amended): on a non-empty snapshot whose records all lack the column,
binary search reports the data error by returning `(None, 0)` — a value no
normal run on a non-empty column-complete snapshot can produce, since those
always make at least one comparison — while sequential search raises an
uncaught `KeyError` instead of mirroring binary search's contract. -/
theorem missing_column_error_reporting (data : List Record) (target col : String)
    (hne : data ≠ []) (hmiss : ∀ r ∈ data, r.lookup col = none) :
    binary_search data target col = (none, 0) ∧
    sequential_search data target col = none ∧
    (∀ (data' : List Record) (target' : String), data' ≠ [] →
      data'.all (hasCol col) = true →
      1 ≤ (binary_search data' target' col).2) :=
  ⟨@binary_search_missing_col data target col (all_hasCol_false hne hmiss),
    sequential_search_missing_col hne hmiss,
    fun _ _ hne' hall' => binary_search_count_pos hall' hne'⟩

/-- C6: the CSV fallback that `connect_to_database` invokes on a connection
error is not among the defined methods of the class (its definition is
commented out), so a failed connection ends in an uncaught `AttributeError`
rather than a file fallback. -/
theorem csv_fallback_method_undefined :
    fallbackMethodCalled ∉ analyzerMethods ∧
    connect_to_database false =
      StartupOutcome.attributeError fallbackMethodCalled :=
  ⟨by decide, by decide⟩

/-- C7 counterexample: a query error makes the Query Executor return a null
result with zero elapsed time, but the Comparison Reporter invoked with that
(schema-invalid, hence snapshot-absent) column does not complete: sequential
search raises `KeyError` out of it. -/
theorem invalid_column_crashes_reporter :
    database_search_unindexed true (Except.error "UndefinedColumn") 0 =
      (none, 0) ∧
    perform_search_comparison [[("customer_id", "1")]] "x" "bogus" true
      (Except.error "UndefinedColumn") 0 = none :=
  ⟨rfl, rfl⟩

/-- C7 (amended): on any query error (no connection, or an exception from the
store) each Query Executor lookup returns a null result and zero elapsed time
instead of propagating, and the Comparison Reporter completes and reports the
in-memory search results whenever the column is present in the snapshot's
records; when it is absent from a non-empty snapshot the Reporter instead
dies on sequential search's `KeyError`. -/
theorem query_error_null_and_reporter_completes (data : List Record)
    (v col e : String) (t : ℚ) (hc : Bool) (q : QueryOutcome)
    (hall : data.all (hasCol col) = true) :
    database_search_indexed false q t = (none, 0) ∧
    database_search_unindexed false q t = (none, 0) ∧
    database_search_indexed hc (Except.error e) t = (none, 0) ∧
    database_search_unindexed hc (Except.error e) t = (none, 0) ∧
    ∃ s, perform_search_comparison data v col hc q t = some s ∧
      s.binaryResult = (binary_search data v col).1 ∧
      s.binaryComparisons = (binary_search data v col).2 ∧
      ∃ p, sequential_search data v col = some p ∧
        s.sequentialResult = p.1 ∧ s.sequentialComparisons = p.2 := by
  refine ⟨rfl, rfl, ?_, ?_, ?_⟩
  · cases hc <;> rfl
  · cases hc <;> rfl
  · obtain ⟨p, hp⟩ := sequential_search_total hall
    exact ⟨_, perform_eq hp, rfl, rfl, p, hp, rfl, rfl⟩

/-- C8 counterexample: a 2-record snapshot with two distinct column values
(no duplicates at all) on which the reporter's speedup ratio is 1/2 < 1:
the target sits first in snapshot order but last in sorted order. -/
theorem speedup_below_one_without_duplicates :
    (∃ s, perform_search_comparison [[("k", "b")], [("k", "a")]] "b" "k"
        false (Except.ok none) 0 = some s ∧
      s.sequentialComparisons = 1 ∧ s.binaryComparisons = 2 ∧
      s.speedup = some ((1 : ℚ) / 2)) ∧
    ¬(1 ≤ ((1 : ℚ) / 2)) ∧
    ([[("k", "b")], [("k", "a")]] : List Record).length > 1 ∧
    keyStr "k" [("k", "b")] ≠ keyStr "k" [("k", "a")] := by
  have hbin : binary_search [[("k", "b")], [("k", "a")]] "b" "k" =
      (some [("k", "b")], 2) := by decide
  have hseq : sequential_search [[("k", "b")], [("k", "a")]] "b" "k" =
      some (some [("k", "b")], 1) := by decide
  refine ⟨⟨_, perform_eq hseq, rfl, ?_, ?_⟩, by norm_num, by decide, by decide⟩
  · rw [hbin]
  · show (if (some ([("k", "b")] : Record), 1).2 > 0 ∧
        (binary_search [[("k", "b")], [("k", "a")]] "b" "k").2 > 0
      then some (((some ([("k", "b")] : Record), 1).2 : ℚ) /
        ((binary_search [[("k", "b")], [("k", "a")]] "b" "k").2 : ℚ))
      else none) = some ((1 : ℚ) / 2)
    rw [hbin]
    norm_num

/-- C8 (amended): for a snapshot of size greater than 1 whose records all
carry the column and a target absent from the column, the reporter computes a
speedup ratio `sequential_comparisons / binary_comparisons` and it is ≥ 1. -/
theorem speedup_ge_one_of_absent_target (data : List Record)
    (target col : String) (t : ℚ) (hc : Bool) (q : QueryOutcome)
    (hsize : 1 < data.length)
    (hall : data.all (hasCol col) = true)
    (habsent : ∀ r ∈ data, r.lookup col ≠ some target) :
    ∃ s, perform_search_comparison data target col hc q t = some s ∧
      ∃ sp, s.speedup = some sp ∧ 1 ≤ sp := by
  have hne : data ≠ [] := by intro h; rw [h] at hsize; simp at hsize
  have hseq := sequential_search_not_found hall habsent
  have hbpos := @binary_search_count_pos data target col hall hne
  have hble := @binary_search_count_le_length data target col hall
  refine ⟨_, perform_eq hseq, ?_⟩
  refine ⟨(data.length : ℚ) / ((binary_search data target col).2 : ℚ), ?_, ?_⟩
  · show (if data.length > 0 ∧ (binary_search data target col).2 > 0
        then some ((data.length : ℚ) / ((binary_search data target col).2 : ℚ))
        else none) = _
    rw [if_pos ⟨by omega, by omega⟩]
  · have hc0 : (0 : ℚ) < ((binary_search data target col).2 : ℚ) :=
      Nat.cast_pos.mpr (by omega)
    rw [one_le_div hc0]
    exact_mod_cast hble

/-! ## Concrete witnesses -/

/-- Witness for C1 at a one-record snapshot. -/
theorem binary_sequential_agree_witness :
    ([[("k", "1")]] : List Record).all (hasCol "k") = true ∧
    ((∃ res c, sequential_search [[("k", "1")]] "1" "k" = some (res, c) ∧
      ((binary_search [[("k", "1")]] "1" "k").1.isSome ↔ res.isSome)) ∧
    (∀ r₁ r₂ c₁ c₂,
      binary_search [[("k", "1")]] "1" "k" = (some r₁, c₁) →
      sequential_search [[("k", "1")]] "1" "k" = some (some r₂, c₂) →
      r₁ ≠ r₂ →
      ∃ i j, i < ([[("k", "1")]] : List Record).length ∧
        j < ([[("k", "1")]] : List Record).length ∧ i ≠ j ∧
        (([[("k", "1")]] : List Record).getD i []).lookup "k" = some "1" ∧
        (([[("k", "1")]] : List Record).getD j []).lookup "k" = some "1")) :=
  ⟨by decide, binary_sequential_agree [[("k", "1")]] "1" "k" (by decide)⟩

/-- Witness for C2 at a one-record snapshot and an absent target. -/
theorem sequential_search_spec_witness :
    ([[("k", "1")]] : List Record).all (hasCol "k") = true ∧
    (((∀ r ∈ ([[("k", "1")]] : List Record), r.lookup "k" ≠ some "2") →
      sequential_search [[("k", "1")]] "2" "k" =
        some (none, ([[("k", "1")]] : List Record).length)) ∧
    (∀ i (hi : i < ([[("k", "1")]] : List Record).length),
      (([[("k", "1")]] : List Record).get ⟨i, hi⟩).lookup "k" = some "2" →
      (∀ j (hj : j < ([[("k", "1")]] : List Record).length), j < i →
        (([[("k", "1")]] : List Record).get ⟨j, hj⟩).lookup "k" ≠ some "2") →
      sequential_search [[("k", "1")]] "2" "k" =
        some (some (([[("k", "1")]] : List Record).get ⟨i, hi⟩), i + 1))) :=
  ⟨by decide, sequential_search_spec [[("k", "1")]] "2" "k" (by decide)⟩

/-- Witness for C3 at a one-record snapshot holding the target. -/
theorem binary_search_log_bound_witness :
    ([[("k", "1")]] : List Record) ≠ [] ∧
    ([[("k", "1")]] : List Record).all (hasCol "k") = true ∧
    (∃ r ∈ ([[("k", "1")]] : List Record), r.lookup "k" = some "1") ∧
    ∃ r c, binary_search [[("k", "1")]] "1" "k" = (some r, c) ∧
      r.lookup "k" = some "1" ∧
      c ≤ Nat.clog 2 (([[("k", "1")]] : List Record).length + 1) :=
  ⟨by decide, by decide, by decide,
    binary_search_log_bound [[("k", "1")]] "1" "k" (by decide) (by decide)
      (by decide)⟩

/-- Witness for the amended C5 at a one-record snapshot without the column. -/
theorem missing_column_error_reporting_witness :
    ([[("a", "1")]] : List Record) ≠ [] ∧
    (∀ r ∈ ([[("a", "1")]] : List Record), r.lookup "b" = none) ∧
    (binary_search [[("a", "1")]] "x" "b" = (none, 0) ∧
    sequential_search [[("a", "1")]] "x" "b" = none ∧
    (∀ (data' : List Record) (target' : String), data' ≠ [] →
      data'.all (hasCol "b") = true →
      1 ≤ (binary_search data' target' "b").2)) :=
  ⟨by decide, by decide,
    missing_column_error_reporting [[("a", "1")]] "x" "b" (by decide) (by decide)⟩

/-- Witness for the amended C7 with no connection and a trivial query result. -/
theorem query_error_null_and_reporter_completes_witness :
    ([[("k", "1")]] : List Record).all (hasCol "k") = true ∧
    (database_search_indexed false (Except.ok none) 0 = (none, 0) ∧
    database_search_unindexed false (Except.ok none) 0 = (none, 0) ∧
    database_search_indexed false (Except.error "err") 0 = (none, 0) ∧
    database_search_unindexed false (Except.error "err") 0 = (none, 0) ∧
    ∃ s, perform_search_comparison [[("k", "1")]] "1" "k" false
        (Except.ok none) 0 = some s ∧
      s.binaryResult = (binary_search [[("k", "1")]] "1" "k").1 ∧
      s.binaryComparisons = (binary_search [[("k", "1")]] "1" "k").2 ∧
      ∃ p, sequential_search [[("k", "1")]] "1" "k" = some p ∧
        s.sequentialResult = p.1 ∧ s.sequentialComparisons = p.2) :=
  ⟨by decide, query_error_null_and_reporter_completes [[("k", "1")]] "1" "k"
    "err" 0 false (Except.ok none) (by decide)⟩

/-- Witness for the amended C8 at a two-record snapshot and an absent target. -/
theorem speedup_ge_one_of_absent_target_witness :
    1 < ([[("k", "a")], [("k", "b")]] : List Record).length ∧
    ([[("k", "a")], [("k", "b")]] : List Record).all (hasCol "k") = true ∧
    (∀ r ∈ ([[("k", "a")], [("k", "b")]] : List Record),
      r.lookup "k" ≠ some "z") ∧
    ∃ s, perform_search_comparison [[("k", "a")], [("k", "b")]] "z" "k" false
        (Except.ok none) 0 = some s ∧
      ∃ sp, s.speedup = some sp ∧ 1 ≤ sp :=
  ⟨by decide, by decide, by decide,
    speedup_ge_one_of_absent_target [[("k", "a")], [("k", "b")]] "z" "k" 0
      false (Except.ok none) (by decide) (by decide) (by decide)⟩

/-- Witness for C10 at a one-record snapshot without the column. -/
theorem missing_column_asymmetry_witness :
    ([[("a", "1")]] : List Record) ≠ [] ∧
    (∀ r ∈ ([[("a", "1")]] : List Record), r.lookup "b" = none) ∧
    (sequential_search [[("a", "1")]] "x" "b" = none ∧
    binary_search [[("a", "1")]] "x" "b" = (none, 0) ∧
    binary_search [[("a", "1")]] "x" "b" = binary_search [] "x" "b") :=
  ⟨by decide, by decide,
    missing_column_asymmetry [[("a", "1")]] "x" "b" (by decide) (by decide)⟩

end DBSearch
